import Mathlib

/-
Shallow embedding of the Claim Mutation Tracking Engine (CMTE) of this
repository:
  app/agents/cmte_embeddings.py  (EmbeddingGenerator)
  app/agents/cmte_search.py      (MutationSearchEngine)
  app/agents/cmte_graph.py       (MutationGraph, backed by Neo4j Cypher queries)
  app/agents/cmte_analyzer.py    (MutationAnalyzer)
  app/agents/cmte.py             (CMTEAgent)

Conventions of the embedding:
  * Python floats are modelled as exact rationals (ℚ); timestamps are epoch
    seconds (ℤ).  Python `round(x, n)` (round-half-even) is modelled exactly
    on ℚ by `pyRound`.
  * A timestamp value held in a mutation dict is one of: a parseable ISO
    string (`TS.fine lex t`, where `lex` is its lexicographic sort key and
    `t` the parsed instant), an unparseable string (`TS.mal lex`, on which
    `datetime.fromisoformat` raises), a datetime-like object such as a Neo4j
    DateTime row value (`TS.dt t`), or a missing key (`TS.absent`, for which
    `dict.get('timestamp', datetime.now())` supplies a fresh `now`).
  * Python `sorted` raises `TypeError` when it compares values of
    incomparable kinds (a string against a datetime, or `None` against
    either); `trySort` returns `none` exactly in that case -- see its comment.
  * Fallible Python code is modelled with `Option`/explicit error branches,
    mirroring each `try/except` of the source.
-/

/-! ## Timestamp values and mutation records (analyzer input universe) -/

/-- Timestamp value as stored under the `'timestamp'` key of a mutation dict.
`fine lex t`: a string `datetime.fromisoformat` accepts (`lex` = order of the
string under Python string comparison, `t` = parsed instant in epoch seconds);
`mal lex`: a string it rejects; `dt t`: an already-datetime-like object
(e.g. a Neo4j `DateTime` returned by a graph query); `absent`: no key. -/
inductive TS where
  | fine (lex : ℤ) (t : ℤ)
  | mal (lex : ℤ)
  | dt (t : ℤ)
  | absent
deriving DecidableEq, Repr

/-- One member of a mutation family as passed to `MutationAnalyzer`
(a Python dict; absent keys are `none` / `TS.absent`). -/
structure Mut where
  id : String
  text : String
  timestamp : TS
  platform : Option String
  distance : ℕ
deriving DecidableEq, Repr

/-- Comparison kind of a sort key produced by
`lambda x: x.get('timestamp', datetime.now())`: 0 = a Python `str`,
1 = a datetime-like object, 2 = the `datetime.now()` default. -/
def sortClass : TS → ℕ
  | .fine _ _ => 0
  | .mal _ => 0
  | .dt _ => 1
  | .absent => 2

/-- Numeric sort key within one comparison kind (string keys compare by
their lexicographic key, datetime-like keys by their instant). -/
def sortKey : TS → ℤ
  | .fine lex _ => lex
  | .mal lex => lex
  | .dt t => t
  | .absent => 0

/-- Comparator used to model Python `sorted` with the timestamp key (a
stable sort under the non-strict key order). -/
def mutLE (a b : Mut) : Prop := sortKey a.timestamp ≤ sortKey b.timestamp

instance : DecidableRel mutLE := fun _ _ => Int.decLe _ _

instance : IsTotal Mut mutLE := ⟨fun _ _ => Int.le_total _ _⟩

instance : IsTrans Mut mutLE := ⟨fun _ _ _ h1 h2 => Int.le_trans h1 h2⟩

/-- Model of `sorted(mutations, key=lambda x: x.get('timestamp', datetime.now()))`.
Python raises `TypeError` (→ `none`) as soon as it compares keys of different
kinds (a `str` against a datetime); lists of length ≤ 1 are never compared.
All-string or all-datetime lists are stably sorted by their key (the model
uses a stable insertion sort, which agrees with any stable sort); when every
key is the `datetime.now()` default the per-element `now()` calls are
non-decreasing in list order, so the stable sort is the identity. -/
def trySort (ms : List Mut) : Option (List Mut) :=
  match ms with
  | [] => some []
  | [m] => some [m]
  | _ =>
    if ms.all (fun m => sortClass m.timestamp = 0) then
      some (List.insertionSort mutLE ms)
    else if ms.all (fun m => sortClass m.timestamp = 1) then
      some (List.insertionSort mutLE ms)
    else if ms.all (fun m => sortClass m.timestamp = 2) then some ms
    else none

/-- Instant used by the time-span subtraction for a first/last member:
`x.get('timestamp')` followed by `datetime.fromisoformat` for strings.
`none` models a raised exception (`fromisoformat` on a malformed string, or
subtraction involving `None` for a missing key). -/
def spanParse : TS → Option ℤ
  | .fine _ t => some t
  | .dt t => some t
  | .mal _ => none
  | .absent => none

/-- Calendar-day key of a timestamp, as used by `_find_peak_period`
(`timestamp.date()` after `fromisoformat` for strings); `none` models a
raised exception for malformed strings and missing keys. -/
def dayOf : TS → Option ℤ
  | .fine _ t => some (Int.fdiv t 86400)
  | .dt t => some (Int.fdiv t 86400)
  | .mal _ => none
  | .absent => none

/-- Round-half-to-even of a rational to an integer (the digit selection step
of Python `round`). -/
def pyRoundInt (y : ℚ) : ℤ :=
  if y - ⌊y⌋ < 1/2 then ⌊y⌋
  else if 1/2 < y - ⌊y⌋ then ⌊y⌋ + 1
  else if ⌊y⌋ % 2 = 0 then ⌊y⌋ else ⌊y⌋ + 1

/-- Python `round(x, n)` on an exact rational: round half to even at `n`
decimal digits. -/
def pyRound (x : ℚ) (n : ℕ) : ℚ :=
  (pyRoundInt (x * 10 ^ n) : ℚ) / 10 ^ n

/-! ## MutationAnalyzer (app/agents/cmte_analyzer.py) -/

/-- Tally dict built by `MutationAnalyzer._classify_mutations`. -/
structure MutationTypes where
  paraphrase : ℕ
  translation : ℕ
  platform_crossover : ℕ
  other : ℕ
deriving DecidableEq, Repr

/-- Peak-period dict built by `MutationAnalyzer._find_peak_period`. -/
structure PeakPeriod where
  date : ℤ
  mutation_count : ℕ
deriving DecidableEq, Repr

/-- Result dict of `MutationAnalyzer.analyze_family`; `mutation_types = none`
models the bare `{}` of the failure dict. -/
structure FamilyStats where
  family_size : ℕ
  time_span_days : ℤ
  spread_rate : ℚ
  viral_score : ℚ
  mutation_types : Option MutationTypes
  earliest_source : Option Mut
  latest_mutation : Option Mut
  peak_period : Option PeakPeriod
deriving DecidableEq, Repr

/-- The all-zero stats dict returned for an empty family. -/
def zeroStats : FamilyStats :=
  { family_size := 0, time_span_days := 0, spread_rate := 0, viral_score := 0,
    mutation_types := none, earliest_source := none, latest_mutation := none,
    peak_period := none }

/-- The stats dict returned from the `except` branch of `analyze_family`:
`family_size` is preserved, everything else is zero/empty. -/
def fallbackStats (ms : List Mut) : FamilyStats :=
  { zeroStats with family_size := ms.length }

/-- Platform of a member, `m.get('platform', 'unknown')`. -/
def platformOf (m : Mut) : String := m.platform.getD "unknown"

/-- Model of `MutationAnalyzer._classify_mutations`: walk consecutive pairs of the
sorted family; a pair whose platforms differ (with the earlier one known)
counts as `platform_crossover`, otherwise `paraphrase`. -/
def classify_mutations (sorted : List Mut) : MutationTypes :=
  (sorted.zip sorted.tail).foldl
    (fun acc p =>
      if platformOf p.1 ≠ platformOf p.2 ∧ platformOf p.1 ≠ "unknown"
      then { acc with platform_crossover := acc.platform_crossover + 1 }
      else { acc with paraphrase := acc.paraphrase + 1 })
    { paraphrase := 0, translation := 0, platform_crossover := 0, other := 0 }

/-- Insertion-ordered list of distinct calendar days (the key order of the
`daily_counts` dict built by `_find_peak_period`). -/
def firstOccur (ds : List ℤ) : List ℤ :=
  ds.foldl (fun acc d => if d ∈ acc then acc else acc ++ [d]) []

/-- Model of `MutationAnalyzer._find_peak_period`: group members by calendar day and
return the first day (in dict iteration order) attaining the maximal count;
`none` for fewer than 2 members or when any timestamp fails to convert
(the inner `try/except`). -/
def find_peak_period (sorted : List Mut) : Option PeakPeriod :=
  if sorted.length < 2 then none
  else
    match sorted.mapM (fun m => dayOf m.timestamp) with
    | none => none
    | some ds =>
      match firstOccur ds with
      | [] => none
      | k :: ks =>
        let best := ks.foldl (fun b d => if ds.count b < ds.count d then d else b) k
        some { date := best, mutation_count := ds.count best }

/-- Time span in whole days used by `analyze_family`:
`(last_time - first_time).days`, i.e. floor division of the elapsed seconds
(`none` models the exception branch when an endpoint fails to parse).
Families of length ≤ 1 use span 0 without touching any timestamp. -/
def timeSpanOf (sorted : List Mut) : Option ℤ :=
  if sorted.length ≤ 1 then some 0
  else
    match sorted.head?, sorted.getLast? with
    | some f, some l =>
      match spanParse f.timestamp, spanParse l.timestamp with
      | some ft, some lt => some (Int.fdiv (lt - ft) 86400)
      | _, _ => none
    | _, _ => some 0

/-- Model of `MutationAnalyzer.analyze_family`. The outer `try/except` is modelled by
the `none` branches of `trySort` / `timeSpanOf` flowing to `fallbackStats`. -/
def analyze_family (ms : List Mut) : FamilyStats :=
  if ms.isEmpty then zeroStats
  else
    match trySort ms with
    | none => fallbackStats ms
    | some sorted =>
      match timeSpanOf sorted with
      | none => fallbackStats ms
      | some time_span =>
        let family_size := ms.length
        let spread_rate : ℚ := (family_size : ℚ) / ((max time_span 1 : ℤ) : ℚ)
        let viral_score : ℚ := min 100 (spread_rate * 10 + (family_size : ℚ) * 2)
        { family_size := family_size,
          time_span_days := time_span,
          spread_rate := pyRound spread_rate 2,
          viral_score := pyRound viral_score 1,
          mutation_types := some (classify_mutations sorted),
          earliest_source := sorted.head?,
          latest_mutation := sorted.getLast?,
          peak_period := find_peak_period sorted }

/-- Result dict of `MutationAnalyzer.predict_spread`. -/
structure SpreadPrediction where
  prediction : String
  current_count : ℕ
  predicted_count : ℤ
  days_ahead : ℕ
  growth_rate : ℚ
  confidence : String
deriving DecidableEq, Repr

/-- Model of `MutationAnalyzer._is_recent`: whether a timestamp lies within the last
`days` days of `now`.  The bare `except` returns `False` for malformed
strings, missing values, and datetime-like objects whose comparison against
the native `datetime` cutoff raises. -/
def is_recent (now : ℤ) (ts : TS) (days : ℕ) : Bool :=
  match ts with
  | .fine _ t => now - 86400 * days ≤ t
  | _ => false

/-- Model of `MutationAnalyzer.predict_spread` (caller passes `days_ahead = 7`). -/
def predict_spread (now : ℤ) (ms : List Mut) (days_ahead : ℕ) : SpreadPrediction :=
  if ms.length < 3 then
    { prediction := "insufficient_data", current_count := ms.length,
      predicted_count := (ms.length : ℤ), days_ahead := days_ahead,
      growth_rate := 0, confidence := "low" }
  else
    match trySort ms with
    | none =>
      { prediction := "error", current_count := ms.length,
        predicted_count := (ms.length : ℤ), days_ahead := days_ahead,
        growth_rate := 0, confidence := "low" }
    | some sorted =>
      let recent := sorted.filter (fun m => is_recent now m.timestamp 7)
      let recent_rate : ℚ := (recent.length : ℚ) / 7
      let predicted : ℤ := Int.floor ((ms.length : ℚ) * (1 + recent_rate) ^ days_ahead)
      { prediction := "exponential_growth", current_count := ms.length,
        predicted_count := predicted, days_ahead := days_ahead,
        growth_rate := pyRound recent_rate 2,
        confidence := if 10 < ms.length then "medium" else "low" }

/-! ## MutationSearchEngine (app/agents/cmte_search.py) -/

namespace MutationSearchEngine

/-- State of a `MutationSearchEngine`: the FAISS `IndexFlatL2` backing store
(kept as the list of inserted vectors) and the parallel `claim_ids` list. -/
structure State where
  dimension : ℕ
  vectors : List (List ℚ)
  claim_ids : List String
deriving DecidableEq, Repr

/-- Model of `MutationSearchEngine.__init__(dimension=384)`. -/
def init (dimension : ℕ) : State :=
  { dimension := dimension, vectors := [], claim_ids := [] }

/-- Model of `MutationSearchEngine.add_claim`: reject (log and return) when the
embedding length differs from the configured dimension, otherwise append the
vector to the FAISS index and the id to `claim_ids`. -/
def add_claim (s : State) (claim_id : String) (embedding : List ℚ) : State :=
  if embedding.length ≠ s.dimension then s
  else { s with vectors := s.vectors ++ [embedding],
                claim_ids := s.claim_ids ++ [claim_id] }

/-- Squared L2 distance, the score an `IndexFlatL2` reports. -/
def sqDist (q v : List ℚ) : ℚ :=
  ((q.zip v).map (fun p => (p.1 - p.2) ^ 2)).sum

/-- Comparator for FAISS result ranking: ascending distance, ties broken by
ascending internal index. -/
def distLE (a b : ℕ × ℚ) : Prop :=
  a.2 < b.2 ∨ (a.2 = b.2 ∧ a.1 ≤ b.1)

instance : DecidableRel distLE := fun _ _ =>
  inferInstanceAs (Decidable (_ ∨ _))

/-- The `(index, distance)` rows of `self.index.search(query, k_actual)`:
the `k_actual = min(k, len(claim_ids))` stored vectors nearest to the query. -/
def rankedCandidates (s : State) (q : List ℚ) (k : ℕ) : List (ℕ × ℚ) :=
  let scored := s.vectors.enum.map (fun p => (p.1, sqDist q p.2))
  (List.insertionSort distLE scored).take (min k s.claim_ids.length)

/-- Model of `MutationSearchEngine.search_similar`: empty index yields `[]`; a query
of the wrong length makes FAISS raise, which the `except` turns into `[]`;
otherwise each ranked hit with a valid index is converted to a similarity
`1 / (1 + d)` and kept when it meets the threshold, preserving rank order. -/
def search_similar (s : State) (q : List ℚ) (k : ℕ) (threshold : ℚ) :
    List (String × ℚ) :=
  if s.claim_ids.length = 0 then []
  else if q.length ≠ s.dimension then []
  else
    (rankedCandidates s q k).filterMap (fun p =>
      if h : p.1 < s.claim_ids.length then
        if threshold ≤ 1 / (1 + p.2) then
          some (s.claim_ids.get ⟨p.1, h⟩, 1 / (1 + p.2))
        else none
      else none)

/-- Model of `MutationSearchEngine.get_index_size`. -/
def get_index_size (s : State) : ℕ := s.claim_ids.length

end MutationSearchEngine

/-! ## EmbeddingGenerator (app/agents/cmte_embeddings.py) -/

namespace EmbeddingGenerator

/-- Value of one `np.float32` array entry.  `val q` is a finite float of
exact value `q`; `inf`, `ninf` and `nan` are the non-finite bit patterns;
`scaled q s` is the entry produced by the normalization step, of exact value
`q` divided by the square root of `s` (the squared L2 norm of the raw
vector), kept in this symbolic form because the square root is in general
irrational. -/
inductive FVal where
  | val (q : ℚ)
  | inf
  | ninf
  | nan
  | scaled (q s : ℚ)
deriving DecidableEq, Repr

/-- IEEE-754 binary32 decoding of 4 little-endian bytes, as performed by
`np.frombuffer(..., dtype=np.float32)`. -/
def decodeF32 (b0 b1 b2 b3 : ℕ) : FVal :=
  let bits : ℕ := b0 + 256 * b1 + 65536 * b2 + 16777216 * b3
  let sign : ℕ := bits / 2 ^ 31 % 2
  let expo : ℕ := bits / 2 ^ 23 % 256
  let frac : ℕ := bits % 2 ^ 23
  if expo = 255 then
    if frac = 0 then (if sign = 1 then FVal.ninf else FVal.inf) else FVal.nan
  else
    let mag : ℚ :=
      if expo = 0 then (frac : ℚ) * (2 : ℚ) ^ (-(149 : ℤ))
      else ((2 ^ 23 + frac : ℕ) : ℚ) * (2 : ℚ) ^ ((expo : ℤ) - 150)
    FVal.val (if sign = 1 then -mag else mag)

/-- Model of `np.frombuffer(bytes, dtype=np.float32)`: reinterpret every aligned
4-byte group of the buffer as one float32 (the element count is the byte
count divided by 4). -/
def frombufferF32 (bytes : List ℕ) : List FVal :=
  (List.range (bytes.length / 4)).map (fun i =>
    decodeF32 (bytes.getD (4 * i) 0) (bytes.getD (4 * i + 1) 0)
      (bytes.getD (4 * i + 2) 0) (bytes.getD (4 * i + 3) 0))

/-- Whether the raw vector holds a NaN entry (then `np.linalg.norm` is NaN
and the `norm > 0` comparison is false). -/
def hasNaN (v : List FVal) : Bool := v.any (fun x => x == FVal.nan)

/-- Whether the raw vector holds an infinite entry (then the norm is +inf). -/
def hasInf (v : List FVal) : Bool :=
  v.any (fun x => x == FVal.inf || x == FVal.ninf)

/-- Sum of squares of the finite entries (equals the squared L2 norm when
every entry is finite). -/
def sumSq (v : List FVal) : ℚ :=
  (v.map (fun x => match x with | FVal.val q => q ^ 2 | _ => 0)).sum

/-- The `norm = np.linalg.norm(e); if norm > 0: e = e / norm` step of
`_simple_embedding`.  A NaN norm fails the comparison and the vector is
returned raw; an infinite norm passes it and division collapses finite
entries to 0 and infinite ones to NaN; a finite positive norm divides each
entry by the (irrational) square root of the squared-norm `sumSq v`. -/
def normalizeF (v : List FVal) : List FVal :=
  if hasNaN v then v
  else if hasInf v then
    v.map (fun x => match x with | FVal.val _ => FVal.val 0 | _ => FVal.nan)
  else if 0 < sumSq v then
    v.map (fun x => match x with | FVal.val q => FVal.scaled q (sumSq v) | x => x)
  else v

/-- Model of `EmbeddingGenerator._simple_embedding`: the 32-byte sha256 digest of the
text is repeated 12 times (384 bytes), reinterpreted as float32 values,
truncated with `[:384]`, and L2-normalized when the norm comparison passes.
The digest itself is obtained from `hashlib` (standard library, outside this
repository), so it enters the model as the function argument. -/
def simple_embedding (digest : List ℕ) : List FVal :=
  normalizeF ((frombufferF32 ((List.replicate 12 digest).flatten)).take 384)

/-- Model of `EmbeddingGenerator.generate_text_embedding`: with a loaded
sentence-transformers model (`text_model = some encode`, modelled as a pure
function since inference runs without sampling) the encoder output is
returned; with no model (`none`) the hash fallback is used.  The
`sha256` argument supplies `hashlib.sha256(text.encode()).digest()`. -/
def generate_text_embedding (text_model : Option (String → List ℚ))
    (sha256 : String → List ℕ) (text : String) : List FVal :=
  match text_model with
  | some encode => (encode text).map FVal.val
  | none => simple_embedding (sha256 text)

end EmbeddingGenerator

/-! ## MutationGraph (app/agents/cmte_graph.py, Neo4j Cypher semantics) -/

namespace MutationGraph

/-- Properties of a `(:Claim)` node. -/
structure Node where
  text : String
  normalized_text : String
  timestamp : ℤ
  source_url : String
  platform : String
deriving DecidableEq, Repr

/-- A `[:MUTATES_TO]` relationship; the `(from_id, to_id)` pair is its MERGE
key, so at most one relationship exists per ordered pair. -/
structure Edge where
  from_id : String
  to_id : String
  similarity : ℚ
  detected_at : ℤ
deriving DecidableEq, Repr

/-- The Neo4j database contents behind a connected `MutationGraph`. -/
structure State where
  nodes : List (String × Node)
  edges : List Edge
deriving DecidableEq, Repr

/-- Model of `MATCH (c:Claim {id: $id})`: node lookup by id. -/
def lookupNode (g : State) (claim_id : String) : Option Node :=
  (g.nodes.find? (fun p => p.1 == claim_id)).map (fun p => p.2)

/-- Model of `MERGE (c:Claim {id: $id}) SET ...`: update the existing node's
properties or create the node. -/
def upsertNode (g : State) (claim_id : String) (nd : Node) : State :=
  if g.nodes.any (fun p => p.1 == claim_id) then
    { g with nodes := (g.nodes.map
        (fun p => if p.1 == claim_id then (claim_id, nd) else p)) }
  else { g with nodes := g.nodes ++ [(claim_id, nd)] }

/-- The dict argument of `MutationGraph.add_claim` after the caller's `.get`
defaults.  `timestamp` is the result of Cypher `datetime($timestamp)` on the
timestamp string: `none` when the string is not a datetime literal (for
example the orchestrator's `'now()'` fallback), in which case the query
raises. -/
structure ClaimPayload where
  text : String
  normalized_text : String
  timestamp : Option ℤ
  source_url : String
  platform : String
deriving DecidableEq, Repr

/-- Model of `MutationGraph.add_claim` on a connected graph: MERGE the node and SET
its properties (`normalized_text` is lower-cased again here); an
unparseable timestamp makes `datetime()` raise, the `except` returns
`False` and the graph is unchanged. -/
def add_claim (g : State) (claim_id : String) (cd : ClaimPayload) : Bool × State :=
  match cd.timestamp with
  | none => (false, g)
  | some t =>
    (true, upsertNode g claim_id
      { text := cd.text, normalized_text := cd.normalized_text.toLower,
        timestamp := t, source_url := cd.source_url, platform := cd.platform })

/-- Model of `MERGE (c1)-[r:MUTATES_TO]->(c2) SET ...` once both endpoint MATCHes
succeeded: update the existing relationship or create it. -/
def upsertEdge (g : State) (from_id to_id : String) (similarity : ℚ)
    (now : ℤ) : State :=
  if g.edges.any (fun e => e.from_id == from_id && e.to_id == to_id) then
    { g with edges := g.edges.map (fun e =>
        if e.from_id == from_id && e.to_id == to_id then
          { e with similarity := similarity, detected_at := now } else e) }
  else
    { g with edges := g.edges ++
        [{ from_id := from_id, to_id := to_id, similarity := similarity,
           detected_at := now }] }

/-- Model of `MutationGraph.add_mutation_edge` on a connected graph: `MATCH` both
endpoints, then `MERGE` the relationship.  When either `MATCH` produces no
row the query simply yields no rows -- nothing is written and no exception
is raised, so the method still returns `True`. -/
def add_mutation_edge (g : State) (from_id to_id : String) (similarity : ℚ)
    (now : ℤ) : Bool × State :=
  if (lookupNode g from_id).isSome ∧ (lookupNode g to_id).isSome then
    (true, upsertEdge g from_id to_id similarity now)
  else (true, g)

/-- One undirected expansion step of a variable-length pattern
`-[:MUTATES_TO]-` from node `u`, excluding relationships already used on the
current path (Cypher relationship-uniqueness/trail semantics); yields the
relationship key and the node at its other end. -/
def trailNext (edges : List Edge) (used : List (String × String)) (u : String) :
    List ((String × String) × String) :=
  edges.filterMap (fun e =>
    if (e.from_id, e.to_id) ∈ used then none
    else if e.from_id == u then some ((e.from_id, e.to_id), e.to_id)
    else if e.to_id == u then some ((e.from_id, e.to_id), e.from_id)
    else none)

/-- End nodes and lengths of every trail (path with pairwise-distinct
relationships, direction ignored) of length at most `fuel` starting at `u`
with `used` relationships already consumed and `d` hops already taken:
the row set produced by `MATCH path = (c)-[:MUTATES_TO*0..n]-(related)`
together with `length(path)`. -/
def trailRows (edges : List Edge) : ℕ → List (String × String) → String → ℕ →
    List (String × ℕ)
  | 0, _, u, d => [(u, d)]
  | fuel + 1, used, u, d =>
    (u, d) :: (trailNext edges used u).flatMap
      (fun step => trailRows edges fuel (step.1 :: used) step.2 (d + 1))

/-- A result row of `find_mutation_family` (`RETURN related.id, related.text,
related.timestamp, length(path) as distance`). -/
structure FamRow where
  id : String
  text : String
  timestamp : ℤ
  distance : ℕ
deriving DecidableEq, Repr

/-- Model of the `ORDER BY distance, timestamp` comparator for family rows (ties on both
keys are returned in an unspecified but fixed order; the model breaks them
by id). -/
def rowLE (a b : FamRow) : Prop :=
  a.distance < b.distance ∨ (a.distance = b.distance ∧
    (a.timestamp < b.timestamp ∨ (a.timestamp = b.timestamp ∧ a.id ≤ b.id)))

instance : DecidableRel rowLE := fun _ _ =>
  inferInstanceAs (Decidable (_ ∨ _))

instance : IsTotal FamRow rowLE := by
  constructor
  intro a b
  unfold rowLE
  rcases lt_trichotomy a.distance b.distance with h | h | h
  · exact Or.inl (Or.inl h)
  · rcases lt_trichotomy a.timestamp b.timestamp with h2 | h2 | h2
    · exact Or.inl (Or.inr ⟨h, Or.inl h2⟩)
    · rcases le_total a.id b.id with h3 | h3
      · exact Or.inl (Or.inr ⟨h, Or.inr ⟨h2, h3⟩⟩)
      · exact Or.inr (Or.inr ⟨h.symm, Or.inr ⟨h2.symm, h3⟩⟩)
    · exact Or.inr (Or.inr ⟨h.symm, Or.inl h2⟩)
  · exact Or.inr (Or.inl h)

instance : IsTrans FamRow rowLE := by
  constructor
  intro a b c h1 h2
  unfold rowLE at *
  rcases h1 with h1 | ⟨e1, h1⟩
  · rcases h2 with h2 | ⟨e2, h2⟩
    · exact Or.inl (h1.trans h2)
    · exact Or.inl (e2 ▸ h1)
  · rcases h2 with h2 | ⟨e2, h2⟩
    · exact Or.inl (e1 ▸ h2)
    · refine Or.inr ⟨e1.trans e2, ?_⟩
      rcases h1 with h1 | ⟨f1, h1⟩
      · rcases h2 with h2 | ⟨f2, h2⟩
        · exact Or.inl (h1.trans h2)
        · exact Or.inl (f2 ▸ h1)
      · rcases h2 with h2 | ⟨f2, h2⟩
        · exact Or.inl (f1 ▸ h2)
        · exact Or.inr ⟨f1.trans f2, h1.trans h2⟩

/-- All rows of the `find_mutation_family` pattern before `DISTINCT`,
ordering and `LIMIT`: one row per trail of length 0..5 from the seed. -/
def famRows (g : State) (claim_id : String) : List FamRow :=
  (trailRows g.edges 5 [] claim_id 0).filterMap (fun p =>
    (lookupNode g p.1).map (fun nd =>
      { id := p.1, text := nd.text, timestamp := nd.timestamp,
        distance := p.2 }))

/-- Model of `MutationGraph.find_mutation_family` on a connected graph: when the seed
id does not MATCH, the query yields no rows; otherwise the DISTINCT rows of
the `*0..5` pattern, ordered by `(distance, timestamp)` and limited to 100. -/
def find_mutation_family (g : State) (claim_id : String) : List FamRow :=
  match lookupNode g claim_id with
  | none => []
  | some _ => (List.insertionSort rowLE ((famRows g claim_id).dedup)).take 100

/-- Neighbors of `u` under the undirected view of the relation. -/
def nbrs (g : State) (u : String) : List String :=
  g.edges.filterMap (fun e =>
    if e.from_id == u then some e.to_id
    else if e.to_id == u then some e.from_id
    else none)

/-- One breadth step: adjoin all neighbors not already collected. -/
def grow (g : State) (acc : List String) : List String :=
  acc ++ ((acc.flatMap (nbrs g)).filter (fun v => !(decide (v ∈ acc))))

/-- Nodes reachable from `seed` in at most `n` undirected hops.  A node is
the endpoint of some trail of length ≤ n exactly when it is the endpoint of
some walk of length ≤ n (every walk contains a simple path between the same
endpoints that is no longer), so the node set of the Cypher `*0..n` pattern
is this breadth-first closure. -/
def reachableWithin (g : State) (seed : String) : ℕ → List String
  | 0 => [seed]
  | n + 1 => grow g (reachableWithin g seed n)

/-- A result row of `find_patient_zero` (`RETURN related.id, related.text,
related.timestamp, related.source_url`). -/
structure PZRow where
  id : String
  text : String
  timestamp : ℤ
  source_url : String
deriving DecidableEq, Repr

/-- Strict comparator realizing `ORDER BY timestamp ASC` with the
deterministic id tie-break. -/
def pzLT (a b : PZRow) : Bool :=
  decide (a.timestamp < b.timestamp ∨ (a.timestamp = b.timestamp ∧ a.id < b.id))

/-- The result rows of the `find_patient_zero` pattern: one per node within
10 undirected hops of the seed, carrying that node's properties. -/
def pzCandidates (g : State) (claim_id : String) : List PZRow :=
  (reachableWithin g claim_id 10).filterMap (fun v =>
    (lookupNode g v).map (fun nd =>
      { id := v, text := nd.text, timestamp := nd.timestamp,
        source_url := nd.source_url }))

/-- Model of `MutationGraph.find_patient_zero` on a connected graph: no row when the
seed does not MATCH; otherwise the row of the `*0..10` pattern with the
minimal timestamp (`ORDER BY timestamp ASC LIMIT 1`), ties resolved by id. -/
def find_patient_zero (g : State) (claim_id : String) : Option PZRow :=
  match lookupNode g claim_id with
  | none => none
  | some _ =>
    match pzCandidates g claim_id with
    | [] => none
    | c :: cs => some (cs.foldl (fun b y => if pzLT y b then y else b) c)

/-- Ids of the nodes present in the graph. -/
def nodeIds (g : State) : List String := g.nodes.map (fun p => p.1)

/-- Well-formedness: every relationship connects existing nodes (guaranteed
by Neo4j, where a relationship cannot dangle). -/
def WF (g : State) : Prop :=
  ∀ e ∈ g.edges, (lookupNode g e.from_id).isSome ∧ (lookupNode g e.to_id).isSome

instance (g : State) : Decidable (WF g) := by
  unfold WF; infer_instance

end MutationGraph

/-! ## CMTEAgent (app/agents/cmte.py) -/

namespace CMTEAgent

/-- Graph attachment of a constructed `CMTEAgent`: `notConfigured` when
`settings.neo4j_uri` is empty (`self.graph is None`); `connFailed` when the
`MutationGraph` was constructed but the Neo4j connection failed
(`self.graph.driver is None`, every graph method degrades); `connected g`
when the driver is live over database contents `g`. -/
inductive GraphHandle where
  | notConfigured
  | connFailed
  | connected (g : MutationGraph.State)
deriving DecidableEq, Repr

/-- The `claim_data` argument of `process`: either a dict (each field is the
parse of the corresponding key; the `timestamp` key holds the Cypher
`datetime()` reading of its string, `none` when absent resp. unparseable) or
a non-dict object, on which `claim_data.get` raises `AttributeError`. -/
inductive ClaimData where
  | notDict
  | dict (timestamp : Option (Option ℤ)) (source_url : Option String)
      (platform : Option String)
deriving DecidableEq, Repr

/-- Numeric view of an ndarray entry as consumed by FAISS distance
arithmetic.  Only the hash-fallback path produces non-`val` entries, and its
vectors always have length 96 ≠ 384, so they are rejected on length alone by
`add_claim` and make `index.search` raise (→ `[]`); the placeholder values
chosen here for non-finite and scaled entries therefore never reach a
result. -/
def fvalToQ : EmbeddingGenerator.FVal → ℚ
  | .val q => q
  | .scaled q _ => q
  | _ => 0

/-- Result record assembled by `CMTEAgent.process` (the error dict populates
`error` and zero/empty values for every analytic field). -/
structure CMTEResult where
  error : Option String
  claim_id : String
  similar_claims_count : ℕ
  similar_claims : List (String × ℚ)
  mutation_family : List MutationGraph.FamRow
  patient_zero : Option MutationGraph.PZRow
  analysis : FamilyStats
  spread_prediction : Option SpreadPrediction
  viral_score : ℚ
  index_size : ℕ
deriving DecidableEq, Repr

/-- Message of the `AttributeError` raised by `claim_data.get` on a non-dict
(the orchestrator stores `str(e)` in the error field). -/
def attributeErrorMsg : String :=
  "'NoneType' object has no attribute 'get'"

/-- The error dict returned by the `except` branch of `process`: the cause
in `error`, and zeroed/empty analytics (its `analysis` sub-dict carries
`family_size: 0, viral_score: 0`). -/
def errorResult (claim_id : String) : CMTEResult :=
  { error := some attributeErrorMsg, claim_id := claim_id,
    similar_claims_count := 0, similar_claims := [], mutation_family := [],
    patient_zero := none, analysis := zeroStats, spread_prediction := none,
    viral_score := 0, index_size := 0 }

/-- View of a family row dict as the analyzer consumes it: the Neo4j row has
`id`, `text`, `timestamp` (a `DateTime` object) and `distance` keys and no
`platform` key. -/
def famRowToMut (r : MutationGraph.FamRow) : Mut :=
  { id := r.id, text := r.text, timestamp := TS.dt r.timestamp,
    platform := none, distance := r.distance }

/-- Steps 5-6 and result assembly of `process`: analyze the family, predict
spread 7 days ahead, and build the success record (top-10 similar claims,
family capped at 50, viral score copied out of the analysis, current index
size). -/
def assembleResult (claim_id : String) (similar_claims : List (String × ℚ))
    (fam : List MutationGraph.FamRow) (pz : Option MutationGraph.PZRow)
    (se2 : MutationSearchEngine.State) (now : ℤ) : CMTEResult :=
  let muts := fam.map famRowToMut
  let analysis := analyze_family muts
  let prediction := predict_spread now muts 7
  { error := none, claim_id := claim_id,
    similar_claims_count := similar_claims.length,
    similar_claims := similar_claims.take 10,
    mutation_family := fam.take 50,
    patient_zero := pz,
    analysis := analysis,
    spread_prediction := some prediction,
    viral_score := analysis.viral_score,
    index_size := MutationSearchEngine.get_index_size se2 }

/-- Model of `CMTEAgent.process`.  Inputs: the optional sentence-transformers encoder
(`text_model`, a pure function: inference runs without sampling), the
`hashlib.sha256` digest oracle, the graph handle, the search-engine state,
`settings.cmte_similarity_threshold`, the current instant, and the claim.
Returns the result record plus the updated index and graph.  The only
statement inside the `try` that can raise is `claim_data.get` (reached only
when `self.graph` is truthy, i.e. configured); the `except` branch returns
the error dict, keeping whatever state was already written. -/
def process (text_model : Option (String → List ℚ))
    (sha256 : String → List ℕ) (graph : GraphHandle)
    (se : MutationSearchEngine.State) (threshold : ℚ) (now : ℤ)
    (claim_id claim_text : String) (claim_data : ClaimData) :
    CMTEResult × MutationSearchEngine.State × GraphHandle :=
  let embedding := EmbeddingGenerator.generate_text_embedding text_model sha256 claim_text
  let embQ := embedding.map fvalToQ
  let similar_claims := MutationSearchEngine.search_similar se embQ 20 threshold
  let se2 := MutationSearchEngine.add_claim se claim_id embQ
  match graph with
  | .notConfigured =>
    (assembleResult claim_id similar_claims [] none se2 now, se2, .notConfigured)
  | .connFailed =>
    match claim_data with
    | .notDict => (errorResult claim_id, se2, .connFailed)
    | .dict _ _ _ =>
      (assembleResult claim_id similar_claims [] none se2 now, se2, .connFailed)
  | .connected g =>
    match claim_data with
    | .notDict => (errorResult claim_id, se2, .connected g)
    | .dict ts src plat =>
      let payload : MutationGraph.ClaimPayload :=
        { text := claim_text, normalized_text := claim_text.toLower,
          timestamp := ts.getD none,
          source_url := src.getD "", platform := plat.getD "unknown" }
      let g1 := (MutationGraph.add_claim g claim_id payload).2
      let g2 := similar_claims.foldl
        (fun gg p => (MutationGraph.add_mutation_edge gg p.1 claim_id p.2 now).2) g1
      let fam := MutationGraph.find_mutation_family g2 claim_id
      let pz := MutationGraph.find_patient_zero g2 claim_id
      (assembleResult claim_id similar_claims fam pz se2 now, se2, .connected g2)

end CMTEAgent

/-! ## Spec-side formulas and concrete instances used by the verification -/

/-- The viral-score formula as the spec states it
(`viralScore = min(100, spreadRate * 10 + familySize * 2)` with
`spreadRate = familySize / max(timeSpanDays, 1)`), written from the spec's
words for comparison against `analyze_family`. -/
def specViralScore (family_size : ℕ) (time_span : ℤ) : ℚ :=
  min 100 ((family_size : ℚ) / ((max time_span 1 : ℤ) : ℚ) * 10 +
    (family_size : ℚ) * 2)

/-- Modelled from the spec: the viral score the spec's edge-case sentence
promises for a family with unparseable timestamps -- members with
unparseable timestamps are excluded from the time-span computation while
the remaining statistics are still computed over the full family.  Written
from the claim's words for comparison against the code's behavior. -/
def specC4ViralParseable (ms : List Mut) : ℚ :=
  let parsed := ms.filterMap (fun m => spanParse m.timestamp)
  let span : ℤ :=
    match parsed.min?, parsed.max? with
    | some mn, some mx => Int.fdiv (mx - mn) 86400
    | _, _ => 0
  specViralScore ms.length span

/-- Fold a batch of `(id, embedding)` inserts into a fresh search engine, as
the orchestrator does one claim at a time. -/
def processInserts (dimension : ℕ) (batch : List (String × List ℚ)) :
    MutationSearchEngine.State :=
  batch.foldl (fun s p => MutationSearchEngine.add_claim s p.1 p.2)
    (MutationSearchEngine.init dimension)

/-- Fold a batch of `(from_id, to_id, similarity)` edge inserts into a
graph, as the orchestrator's edge loop does. -/
def foldEdges (now : ℤ) (g : MutationGraph.State)
    (batch : List (String × String × ℚ)) : MutationGraph.State :=
  batch.foldl
    (fun gg e => (MutationGraph.add_mutation_edge gg e.1 e.2.1 e.2.2 now).2) g

/-- Node properties used for claim `A` of the two small test graphs. -/
def c1NodeA : MutationGraph.Node :=
  { text := "claim a", normalized_text := "claim a", timestamp := 100,
    source_url := "", platform := "unknown" }

/-- Node properties used for claim `B` of `c1GraphAB`. -/
def c1NodeB : MutationGraph.Node :=
  { text := "claim b", normalized_text := "claim b", timestamp := 200,
    source_url := "", platform := "unknown" }

/-- A graph holding a single claim node `A` (used to exercise
`add_mutation_edge` with a missing endpoint). -/
def c1Graph : MutationGraph.State :=
  { nodes := [("A", c1NodeA)], edges := [] }

/-- A graph holding claim nodes `A` and `B` and no edges (used to exercise
`add_mutation_edge` with both endpoints present). -/
def c1GraphAB : MutationGraph.State :=
  { nodes := [("A", c1NodeA), ("B", c1NodeB)], edges := [] }

/-- The node properties of claim `A` of `exampleGraph`. -/
def exampleNodeA : MutationGraph.Node :=
  { text := "ta", normalized_text := "ta", timestamp := 10,
    source_url := "ua", platform := "unknown" }

/-- The node properties of claim `B` of `exampleGraph`. -/
def exampleNodeB : MutationGraph.Node :=
  { text := "tb", normalized_text := "tb", timestamp := 5,
    source_url := "ub", platform := "unknown" }

/-- The node properties of claim `C` of `exampleGraph`. -/
def exampleNodeC : MutationGraph.Node :=
  { text := "tc", normalized_text := "tc", timestamp := 20,
    source_url := "uc", platform := "unknown" }

/-- The spec's patient-zero test graph: claims `A`, `B`, `C` with timestamps
10, 5, 20 connected `A - B - C`. -/
def exampleGraph : MutationGraph.State :=
  { nodes := [("A", exampleNodeA), ("B", exampleNodeB), ("C", exampleNodeC)],
    edges :=
      [{ from_id := "A", to_id := "B", similarity := 9/10, detected_at := 0 },
       { from_id := "B", to_id := "C", similarity := 9/10, detected_at := 0 }] }

/-- A two-member family whose earlier member carries a malformed timestamp
string and whose later member parses. -/
def c4Family : List Mut :=
  [{ id := "m1", text := "claim a", timestamp := TS.mal 0, platform := none,
     distance := 0 },
   { id := "m2", text := "claim b", timestamp := TS.fine 1 3600,
     platform := some "twitter", distance := 1 }]

/-- A two-member family with two parseable same-day timestamps. -/
def c5Family : List Mut :=
  [{ id := "m1", text := "claim a", timestamp := TS.fine 0 0,
     platform := none, distance := 0 },
   { id := "m2", text := "claim b", timestamp := TS.fine 1 3600,
     platform := some "twitter", distance := 1 }]

/-- A search-engine state over dimension 2 holding one vector for claim
`a`. -/
def c6State : MutationSearchEngine.State :=
  { dimension := 2, vectors := [[0, 0]], claim_ids := ["a"] }

/-- A two-member family (below the three-member prediction threshold). -/
def c8Family : List Mut :=
  [{ id := "a", text := "", timestamp := TS.fine 0 0, platform := none,
     distance := 0 },
   { id := "b", text := "", timestamp := TS.fine 1 60, platform := none,
     distance := 0 }]

/-- An insert batch holding one embedding of the right dimension and one of
the wrong dimension. -/
def c10Batch : List (String × List ℚ) :=
  [("a", [1, 2]), ("bad", [1]), ("b", [3, 4])]

/-- The all-zero stand-in for a sha256 digest (32 bytes); only its length
matters to the properties proved here. -/
def c9Digest : List ℕ := List.replicate 32 0

/-- A concrete orchestrator run: an embedding model producing a 1-entry
vector, graph connection failed, empty index, and a non-dict `claim_data`. -/
def c2Run : CMTEAgent.CMTEResult × MutationSearchEngine.State × CMTEAgent.GraphHandle :=
  CMTEAgent.process (some (fun _ => [1])) (fun _ => c9Digest)
    CMTEAgent.GraphHandle.connFailed (MutationSearchEngine.init 384) (17/20) 0
    "c1" "vaccines cause outages" CMTEAgent.ClaimData.notDict

/-- The family row `find_mutation_family` derives for the seed itself
(distance 0). -/
def seedFamRow (seed : String) (nd : MutationGraph.Node) : MutationGraph.FamRow :=
  { id := seed, text := nd.text, timestamp := nd.timestamp, distance := 0 }

/-! ## Verification: analyzer properties (C4, C5, C8) -/

/-- Bounds for the integer part of Python rounding: rounding keeps a value
of `[0, 1000]` in `[0, 1000]`. -/
theorem pyRoundInt_bounds (y : ℚ) (h0 : 0 ≤ y) (h1 : y ≤ 1000) :
    0 ≤ pyRoundInt y ∧ pyRoundInt y ≤ 1000 := by
  have hfl0 : (0 : ℤ) ≤ ⌊y⌋ := Int.floor_nonneg.mpr h0
  have hfl_le : (⌊y⌋ : ℚ) ≤ y := Int.floor_le y
  have hfl1 : ⌊y⌋ ≤ 1000 := by exact_mod_cast le_trans hfl_le h1
  have hup : ∀ hhalf : ¬ y - ⌊y⌋ < 1/2, ⌊y⌋ + 1 ≤ 1000 := by
    intro hhalf
    have hh : (⌊y⌋ : ℚ) + 1/2 ≤ y := by linarith [not_lt.mp hhalf]
    have h999 : ⌊y⌋ ≤ 999 := by
      by_contra hc
      push_neg at hc
      have : (1000 : ℚ) ≤ (⌊y⌋ : ℚ) := by exact_mod_cast hc
      linarith
    omega
  unfold pyRoundInt
  split_ifs with hc1 hc2 hc3
  · exact ⟨hfl0, hfl1⟩
  · exact ⟨by omega, hup hc1⟩
  · exact ⟨hfl0, hfl1⟩
  · exact ⟨by omega, hup hc1⟩

/-- Python `round(x, 1)` keeps a value of `[0, 100]` within `[0, 100]`. -/
theorem pyRound_bounds (x : ℚ) (h0 : 0 ≤ x) (h1 : x ≤ 100) :
    0 ≤ pyRound x 1 ∧ pyRound x 1 ≤ 100 := by
  unfold pyRound
  have hb := pyRoundInt_bounds (x * 10 ^ 1) (by positivity) (by nlinarith)
  have hcast0 : (0 : ℚ) ≤ (pyRoundInt (x * 10 ^ 1) : ℚ) := by exact_mod_cast hb.1
  have hcast1 : (pyRoundInt (x * 10 ^ 1) : ℚ) ≤ 1000 := by exact_mod_cast hb.2
  constructor
  · positivity
  · rw [div_le_iff₀ (by norm_num : (0:ℚ) < 10 ^ 1)]
    linarith

/-- The empty family yields the all-zero stats dict. -/
theorem analyze_family_empty : analyze_family [] = zeroStats := rfl

/-- When the sort or the time-span endpoints raise, `analyze_family` lands
in its `except` branch and returns the degraded dict. -/
theorem analyze_family_fallback (ms : List Mut) (hne : ms ≠ [])
    (hfail : trySort ms = none ∨
      ∃ sorted, trySort ms = some sorted ∧ timeSpanOf sorted = none) :
    analyze_family ms = fallbackStats ms := by
  unfold analyze_family
  rw [if_neg (by simpa using hne)]
  rcases hfail with h | ⟨sorted, h1, h2⟩
  · rw [h]
  · rw [h1]
    dsimp only
    rw [h2]

/-- When the sort succeeds and the span endpoints parse, `analyze_family`
returns the fully computed stats dict. -/
theorem analyze_family_computed (ms sorted : List Mut) (span : ℤ)
    (hne : ms ≠ []) (h1 : trySort ms = some sorted)
    (h2 : timeSpanOf sorted = some span) :
    analyze_family ms =
      { family_size := ms.length, time_span_days := span,
        spread_rate := pyRound ((ms.length : ℚ) / ((max span 1 : ℤ) : ℚ)) 2,
        viral_score := pyRound (specViralScore ms.length span) 1,
        mutation_types := some (classify_mutations sorted),
        earliest_source := sorted.head?, latest_mutation := sorted.getLast?,
        peak_period := find_peak_period sorted } := by
  unfold analyze_family
  rw [if_neg (by simpa using hne), h1]
  dsimp only
  rw [h2]
  exact rfl

/-- C5: for every family the returned viral score lies in `[0, 100]`; an
empty family yields viral score 0; and whenever the analysis reaches its
computation (the sort succeeds and the span endpoints parse) the score is
exactly the clamped spec formula `min(100, spreadRate*10 + familySize*2)`
(up to the code's final 1-decimal rounding). -/
theorem c5_viral_score_bounds (ms : List Mut) :
    (0 ≤ (analyze_family ms).viral_score ∧
      (analyze_family ms).viral_score ≤ 100) ∧
    (ms = [] → (analyze_family ms).viral_score = 0) ∧
    (∀ sorted span, ms ≠ [] → trySort ms = some sorted →
      timeSpanOf sorted = some span →
      (analyze_family ms).viral_score = pyRound (specViralScore ms.length span) 1) := by
  by_cases hne : ms = []
  · subst hne
    rw [analyze_family_empty]
    exact ⟨⟨le_refl 0, by norm_num [zeroStats]⟩, fun _ => rfl,
      fun _ _ h _ _ => absurd rfl h⟩
  · cases htry : trySort ms with
    | none =>
      rw [analyze_family_fallback ms hne (Or.inl htry)]
      refine ⟨⟨le_refl 0, by norm_num [fallbackStats, zeroStats]⟩,
        fun h => absurd h hne, fun sorted span _ h1 _ => ?_⟩
      exact Option.noConfusion h1
    | some sorted =>
      cases hspan : timeSpanOf sorted with
      | none =>
        rw [analyze_family_fallback ms hne (Or.inr ⟨sorted, htry, hspan⟩)]
        refine ⟨⟨le_refl 0, by norm_num [fallbackStats, zeroStats]⟩,
          fun h => absurd h hne, fun sorted' span _ h1 h2 => ?_⟩
        have hss : sorted = sorted' := Option.some.inj h1
        subst hss
        rw [hspan] at h2
        exact Option.noConfusion h2
      | some span =>
        rw [analyze_family_computed ms sorted span hne htry hspan]
        have hden : (0 : ℚ) < ((max span 1 : ℤ) : ℚ) := by
          have h1 : (1 : ℤ) ≤ max span 1 := le_max_right span 1
          have h1q : (1 : ℚ) ≤ ((max span 1 : ℤ) : ℚ) := by exact_mod_cast h1
          linarith
        have hx : 0 ≤ specViralScore ms.length span ∧
            specViralScore ms.length span ≤ 100 := by
          unfold specViralScore
          constructor
          · apply le_min (by norm_num)
            have hdiv : (0 : ℚ) ≤ (ms.length : ℚ) / ((max span 1 : ℤ) : ℚ) :=
              div_nonneg (Nat.cast_nonneg _) (le_of_lt hden)
            positivity
          · exact min_le_left _ _
        refine ⟨pyRound_bounds _ hx.1 hx.2, fun h => absurd h hne,
          fun sorted' span' _ h1 h2 => ?_⟩
        have hss : sorted = sorted' := Option.some.inj h1
        subst hss
        have hsp : span = span' := Option.some.inj (hspan.symm.trans h2)
        subst hsp
        rfl

/-- C5 (witness): the bounds and the formula instantiated on a concrete
two-member same-day family. -/
theorem c5_witness :
    (0 ≤ (analyze_family c5Family).viral_score ∧
      (analyze_family c5Family).viral_score ≤ 100) ∧
    (analyze_family c5Family).viral_score =
      pyRound (specViralScore c5Family.length 0) 1 := by
  have h := c5_viral_score_bounds c5Family
  exact ⟨h.1, h.2.2 c5Family 0 (by decide) (by decide) (by decide)⟩

/-- C4 (counterexample): on a two-member family whose earlier timestamp
string is malformed, the claim promises that the member is excluded from the
time-span computation while family size, spread rate, viral score,
breakdown and peak period are still computed from the parseable data (which
would give viral score `min(100, (2/1)*10 + 2*2) = 24` and a populated
breakdown); the code instead lands in its catch-all `except` and zeroes
every statistic except the family size. -/
theorem c4_counterexample :
    (analyze_family c4Family).family_size = 2 ∧
    (analyze_family c4Family).viral_score = 0 ∧
    (analyze_family c4Family).spread_rate = 0 ∧
    (analyze_family c4Family).mutation_types = none ∧
    (analyze_family c4Family).peak_period = none ∧
    specC4ViralParseable c4Family = 24 ∧
    (analyze_family c4Family).viral_score ≠ specC4ViralParseable c4Family := by
  have h : analyze_family c4Family = fallbackStats c4Family :=
    analyze_family_fallback _ (by decide) (Or.inr ⟨c4Family, by decide, by decide⟩)
  have hs : specC4ViralParseable c4Family = specViralScore 2 0 := rfl
  have hs2 : specViralScore 2 0 = 24 := by
    unfold specViralScore
    rw [max_eq_right (by norm_num : (0:ℤ) ≤ 1)]
    have harith : ((2:ℕ) : ℚ) / (((1:ℤ)) : ℚ) * 10 + ((2:ℕ) : ℚ) * 2 = 24 := by
      push_cast
      norm_num
    rw [harith, min_eq_right (by norm_num : (24:ℚ) ≤ 100)]
  rw [h, hs, hs2]
  refine ⟨rfl, rfl, rfl, rfl, rfl, rfl, ?_⟩
  norm_num [fallbackStats, zeroStats]

/-- C4 (amended): `analyze_family` never raises on malformed or missing
timestamps -- every failure is caught -- but instead of excluding the
unparseable members and computing the remaining statistics from the
parseable data, it degrades to the fallback dict: the family size is
preserved and the spread rate, viral score, breakdown and peak period are
zeroed/empty whenever the sort or a span endpoint fails to parse. -/
theorem c4_degraded_on_unparseable (ms : List Mut) (hne : ms ≠ [])
    (hfail : trySort ms = none ∨
      ∃ sorted, trySort ms = some sorted ∧ timeSpanOf sorted = none) :
    analyze_family ms = fallbackStats ms ∧
    (analyze_family ms).family_size = ms.length ∧
    (analyze_family ms).viral_score = 0 ∧
    (analyze_family ms).spread_rate = 0 ∧
    (analyze_family ms).mutation_types = none ∧
    (analyze_family ms).peak_period = none := by
  have h := analyze_family_fallback ms hne hfail
  rw [h]
  exact ⟨rfl, rfl, rfl, rfl, rfl, rfl⟩

/-- C4 (witness): the degradation theorem applied to the concrete family
with one malformed timestamp. -/
theorem c4_witness :
    c4Family ≠ [] ∧
    trySort c4Family = some c4Family ∧ timeSpanOf c4Family = none ∧
    analyze_family c4Family = fallbackStats c4Family := by
  refine ⟨by decide, by decide, by decide, ?_⟩
  exact (c4_degraded_on_unparseable c4Family (by decide)
    (Or.inr ⟨c4Family, by decide, by decide⟩)).1

/-- C8: a family with fewer than 3 members yields
`prediction = "insufficient_data"`, a predicted count equal to the current
member count, zero growth rate and confidence `"low"`. -/
theorem c8_insufficient_data (now : ℤ) (ms : List Mut) (days_ahead : ℕ)
    (h : ms.length < 3) :
    predict_spread now ms days_ahead =
      { prediction := "insufficient_data", current_count := ms.length,
        predicted_count := (ms.length : ℤ), days_ahead := days_ahead,
        growth_rate := 0, confidence := "low" } ∧
    (predict_spread now ms days_ahead).predicted_count =
      ((predict_spread now ms days_ahead).current_count : ℤ) := by
  constructor
  · unfold predict_spread
    rw [if_pos h]
  · unfold predict_spread
    rw [if_pos h]

/-- C8 (witness): the prediction floor on a concrete family of size 2. -/
theorem c8_witness :
    c8Family.length < 3 ∧
    predict_spread 0 c8Family 7 =
      { prediction := "insufficient_data", current_count := 2,
        predicted_count := 2, days_ahead := 7, growth_rate := 0,
        confidence := "low" } ∧
    (predict_spread 0 c8Family 7).predicted_count =
      ((predict_spread 0 c8Family 7).current_count : ℤ) := by
  have h := c8_insufficient_data 0 c8Family 7 (by decide)
  refine ⟨by decide, ?_, h.2⟩
  rw [h.1]
  exact rfl

/-! ## Verification: search-engine properties (C6, C10) -/

/-- C6: lowering the search threshold never excludes a result -- every
`(id, similarity)` entry returned at threshold `t2` is also returned at any
lower threshold `t1` over the same index state, query and `k`. -/
theorem c6_threshold_monotone (s : MutationSearchEngine.State) (q : List ℚ)
    (k : ℕ) (t1 t2 : ℚ) (h : t1 < t2) (x : String × ℚ)
    (hx : x ∈ MutationSearchEngine.search_similar s q k t2) :
    x ∈ MutationSearchEngine.search_similar s q k t1 := by
  unfold MutationSearchEngine.search_similar at hx ⊢
  by_cases h1 : s.claim_ids.length = 0
  · rw [if_pos h1] at hx
    exact absurd hx (List.not_mem_nil x)
  · rw [if_neg h1] at hx ⊢
    by_cases h2 : q.length ≠ s.dimension
    · rw [if_pos h2] at hx
      exact absurd hx (List.not_mem_nil x)
    · rw [if_neg h2] at hx ⊢
      rcases List.mem_filterMap.mp hx with ⟨p, hp, hf⟩
      refine List.mem_filterMap.mpr ⟨p, hp, ?_⟩
      by_cases hlt : p.1 < s.claim_ids.length
      · rw [dif_pos hlt] at hf ⊢
        by_cases ht2 : t2 ≤ 1 / (1 + p.2)
        · rw [if_pos ht2] at hf
          rw [if_pos (le_trans (le_of_lt h) ht2)]
          exact hf
        · rw [if_neg ht2] at hf
          exact Option.noConfusion hf
      · rw [dif_neg hlt] at hf
        exact Option.noConfusion hf

/-- C6 (witness): a concrete entry found at threshold 1/2 is also found at
threshold 1/4 on a one-vector index. -/
theorem c6_witness :
    ((1:ℚ)/4 < 1/2) ∧
    ("a", (1:ℚ)) ∈ MutationSearchEngine.search_similar c6State [0, 0] 20 (1/2) ∧
    ("a", (1:ℚ)) ∈ MutationSearchEngine.search_similar c6State [0, 0] 20 (1/4) := by
  have hrc : MutationSearchEngine.rankedCandidates c6State [0, 0] 20 = [(0, 0)] := by
    unfold MutationSearchEngine.rankedCandidates
    norm_num [c6State, MutationSearchEngine.sqDist, List.insertionSort]
  have hmem : ("a", (1:ℚ)) ∈ MutationSearchEngine.search_similar c6State [0, 0] 20 (1/2) := by
    unfold MutationSearchEngine.search_similar
    rw [if_neg (by decide), if_neg (by decide), hrc]
    norm_num [List.filterMap, c6State]
  exact ⟨by norm_num, hmem,
    c6_threshold_monotone c6State [0, 0] 20 (1/4) (1/2) (by norm_num) _ hmem⟩

/-- Folding `add_claim` over a batch keeps the configured dimension, and
grows the id list and the vector store by exactly the number of inserts
whose embedding matches the dimension. -/
theorem addClaim_foldl_facts (batch : List (String × List ℚ)) :
    ∀ s : MutationSearchEngine.State,
      (batch.foldl (fun acc p => MutationSearchEngine.add_claim acc p.1 p.2) s).dimension
        = s.dimension ∧
      (batch.foldl (fun acc p => MutationSearchEngine.add_claim acc p.1 p.2) s).claim_ids.length
        = s.claim_ids.length + (batch.filter (fun p => p.2.length = s.dimension)).length ∧
      (batch.foldl (fun acc p => MutationSearchEngine.add_claim acc p.1 p.2) s).vectors.length
        = s.vectors.length + (batch.filter (fun p => p.2.length = s.dimension)).length := by
  induction batch with
  | nil => intro s; exact ⟨rfl, by simp, by simp⟩
  | cons p rest ih =>
    intro s
    simp only [List.foldl_cons, List.filter_cons]
    by_cases hp : p.2.length = s.dimension
    · have hadd : MutationSearchEngine.add_claim s p.1 p.2 =
          { s with vectors := s.vectors ++ [p.2],
                   claim_ids := s.claim_ids ++ [p.1] } := by
        unfold MutationSearchEngine.add_claim
        rw [if_neg (by simp [hp])]
      rw [hadd]
      obtain ⟨ihd, ihc, ihv⟩ :=
        ih { s with vectors := s.vectors ++ [p.2], claim_ids := s.claim_ids ++ [p.1] }
      rw [if_pos (by simpa using hp)]
      dsimp only at ihd ihc ihv ⊢
      refine ⟨ihd, ?_, ?_⟩
      · rw [ihc]
        simp only [List.length_append, List.length_singleton, List.length_cons,
          List.length_nil]
        omega
      · rw [ihv]
        simp only [List.length_append, List.length_singleton, List.length_cons,
          List.length_nil]
        omega
    · have hadd : MutationSearchEngine.add_claim s p.1 p.2 = s := by
        unfold MutationSearchEngine.add_claim
        rw [if_pos (by simpa using hp)]
      rw [hadd, if_neg (by simpa using hp)]
      exact ih s

/-- Every internal index a search ranks refers to a stored vector. -/
theorem rankedCandidates_lt_vectors (s : MutationSearchEngine.State)
    (q : List ℚ) (k : ℕ) :
    ∀ p ∈ MutationSearchEngine.rankedCandidates s q k, p.1 < s.vectors.length := by
  intro p hp
  unfold MutationSearchEngine.rankedCandidates at hp
  have hp2 := (List.take_sublist _ _).mem hp
  have hp3 := (List.perm_insertionSort MutationSearchEngine.distLE _).mem_iff.mp hp2
  rcases List.mem_map.mp hp3 with ⟨pr, hpr, heq⟩
  obtain ⟨i, v⟩ := pr
  have hlt := (List.mem_enum hpr).1
  rw [← heq]
  exact hlt

/-- C10: from a fresh engine, any batch of inserts keeps the stored id list
and the vector store at equal lengths; the reported index size equals the
number of accepted (dimension-matching) inserts; a mismatched insert
changes nothing; an accepted insert appends exactly one entry to each
store; and every internal index position a search ranks maps to a valid
stored claim id. -/
theorem c10_index_parallel_invariant (dimension : ℕ)
    (batch : List (String × List ℚ)) (q : List ℚ) (k : ℕ) (claim_id : String)
    (embedding : List ℚ) :
    (processInserts dimension batch).claim_ids.length =
      (processInserts dimension batch).vectors.length ∧
    MutationSearchEngine.get_index_size (processInserts dimension batch) =
      (batch.filter (fun p => p.2.length = dimension)).length ∧
    (embedding.length ≠ dimension →
      MutationSearchEngine.add_claim (processInserts dimension batch) claim_id embedding =
        processInserts dimension batch) ∧
    (embedding.length = dimension →
      (MutationSearchEngine.add_claim (processInserts dimension batch) claim_id embedding).claim_ids
        = (processInserts dimension batch).claim_ids ++ [claim_id] ∧
      (MutationSearchEngine.add_claim (processInserts dimension batch) claim_id embedding).vectors
        = (processInserts dimension batch).vectors ++ [embedding]) ∧
    (∀ p ∈ MutationSearchEngine.rankedCandidates (processInserts dimension batch) q k,
      p.1 < (processInserts dimension batch).claim_ids.length) := by
  obtain ⟨hd, hc, hv⟩ := addClaim_foldl_facts batch (MutationSearchEngine.init dimension)
  have hd' : (processInserts dimension batch).dimension = dimension := hd
  have hc' : (processInserts dimension batch).claim_ids.length =
      (batch.filter (fun p => p.2.length = dimension)).length := by
    simpa [MutationSearchEngine.init] using hc
  have hv' : (processInserts dimension batch).vectors.length =
      (batch.filter (fun p => p.2.length = dimension)).length := by
    simpa [MutationSearchEngine.init] using hv
  refine ⟨hc'.trans hv'.symm, hc', ?_, ?_, ?_⟩
  · intro hne
    unfold MutationSearchEngine.add_claim
    rw [if_pos (by rw [hd']; exact hne)]
  · intro heq
    have hok : ¬ embedding.length ≠ (processInserts dimension batch).dimension := by
      rw [hd']
      simpa using heq
    unfold MutationSearchEngine.add_claim
    rw [if_neg hok]
    exact ⟨rfl, rfl⟩
  · intro p hp
    have := rankedCandidates_lt_vectors (processInserts dimension batch) q k p hp
    omega

/-- C10 (witness): the invariant instantiated on a concrete batch with one
mismatched insert. -/
theorem c10_witness :
    (processInserts 2 c10Batch).claim_ids.length =
      (processInserts 2 c10Batch).vectors.length ∧
    MutationSearchEngine.get_index_size (processInserts 2 c10Batch) = 2 ∧
    MutationSearchEngine.add_claim (processInserts 2 c10Batch) "c" [5] =
      processInserts 2 c10Batch ∧
    (MutationSearchEngine.add_claim (processInserts 2 c10Batch) "c" [5, 6]).claim_ids
      = (processInserts 2 c10Batch).claim_ids ++ ["c"] := by
  have h := c10_index_parallel_invariant 2 c10Batch [0, 0] 0 "c" [5]
  have h2 := c10_index_parallel_invariant 2 c10Batch [0, 0] 0 "c" [5, 6]
  refine ⟨h.1, ?_, h.2.2.1 (by decide), (h2.2.2.2.1 (by decide)).1⟩
  rw [h.2.1]
  decide

/-! ## Verification: embedding fallback dimension (C9) -/

/-- The hash-fallback vector always has 96 entries: 384 bytes (the 32-byte
digest repeated 12 times) reinterpret as 96 float32 values, and both the
`[:384]` truncation and the normalization step keep that length. -/
theorem simple_embedding_length (digest : List ℕ) (h : digest.length = 32) :
    (EmbeddingGenerator.simple_embedding digest).length = 96 := by
  have hbytes : ((List.replicate 12 digest).flatten).length = 384 := by
    rw [List.length_flatten]
    simp [h]
  have hfb : (EmbeddingGenerator.frombufferF32
      ((List.replicate 12 digest).flatten)).length = 96 := by
    unfold EmbeddingGenerator.frombufferF32
    rw [List.length_map, List.length_range, hbytes]
  have htake : ((EmbeddingGenerator.frombufferF32
      ((List.replicate 12 digest).flatten)).take 384).length = 96 := by
    rw [List.length_take, hfb]
    omega
  unfold EmbeddingGenerator.simple_embedding EmbeddingGenerator.normalizeF
  split_ifs
  · exact htake
  · rw [List.length_map]; exact htake
  · rw [List.length_map]; exact htake
  · exact htake

/-- C9: the fallback embedding has dimension 96, not the configured 384 --
`hash_bytes * 12` yields 384 bytes, which `np.frombuffer(..., np.float32)`
reads as only 96 values, so `[:384]` truncates nothing and every fallback
vector is 96-dimensional, contradicting the function's own
"Generate 384-dim vector" docstring and the index configuration. -/
theorem c9_fallback_vector_dimension :
    c9Digest.length = 32 ∧
    (EmbeddingGenerator.simple_embedding c9Digest).length = 96 ∧
    (96 : ℕ) ≠ 384 := by
  exact ⟨by decide, simple_embedding_length c9Digest (by decide), by decide⟩

/-! ## Verification: mutation-edge insertion (C1) -/

/-- C1 (counterexample): with claim `B` absent from the graph,
`add_mutation_edge` writes nothing -- but it does not fail: it returns
`True`, the same success value a fully successful insert returns, so no
`MissingNode` error is signalled to the caller. -/
theorem c1_counterexample :
    MutationGraph.lookupNode c1Graph "B" = none ∧
    MutationGraph.add_mutation_edge c1Graph "A" "B" (9/10) 0 = (true, c1Graph) ∧
    (MutationGraph.add_mutation_edge c1GraphAB "A" "B" (9/10) 0).1 = true ∧
    (MutationGraph.add_mutation_edge c1GraphAB "A" "B" (9/10) 0).2.edges.length = 1 := by
  exact ⟨by decide, by decide, rfl, rfl⟩

/-- C1 (amended): when either endpoint claim is missing, `add_mutation_edge`
creates no edge and leaves the graph unchanged, but it reports success
(returns `True`) instead of failing with a `MissingNode` error; the
remaining edges of a batch are still processed unaffected. -/
theorem c1_missing_endpoint_silent_noop (g : MutationGraph.State)
    (from_id to_id : String) (similarity : ℚ) (now : ℤ)
    (h : MutationGraph.lookupNode g from_id = none ∨
      MutationGraph.lookupNode g to_id = none) :
    MutationGraph.add_mutation_edge g from_id to_id similarity now = (true, g) ∧
    ∀ rest : List (String × String × ℚ),
      foldEdges now g ((from_id, to_id, similarity) :: rest) = foldEdges now g rest := by
  have hcond : ¬ ((MutationGraph.lookupNode g from_id).isSome ∧
      (MutationGraph.lookupNode g to_id).isSome) := by
    rcases h with h | h <;> simp [h]
  have hmain : MutationGraph.add_mutation_edge g from_id to_id similarity now
      = (true, g) := by
    unfold MutationGraph.add_mutation_edge
    rw [if_neg hcond]
  refine ⟨hmain, fun rest => ?_⟩
  unfold foldEdges
  simp only [List.foldl_cons]
  rw [hmain]

/-- C1 (witness): the no-op behavior on the concrete one-node graph. -/
theorem c1_witness :
    (MutationGraph.lookupNode c1Graph "A" = none ∨
      MutationGraph.lookupNode c1Graph "B" = none) ∧
    MutationGraph.add_mutation_edge c1Graph "A" "B" (9/10) 0 = (true, c1Graph) ∧
    foldEdges 0 c1Graph [("A", "B", 9/10)] = foldEdges 0 c1Graph [] := by
  have h : MutationGraph.lookupNode c1Graph "A" = none ∨
      MutationGraph.lookupNode c1Graph "B" = none := Or.inr (by decide)
  have hm := c1_missing_endpoint_silent_noop c1Graph "A" "B" (9/10) 0 h
  exact ⟨h, hm.1, hm.2 []⟩

/-! ## Verification: patient zero (C3) -/

/-- The patient-zero comparator is irreflexive. -/
theorem pzLT_irrefl (a : MutationGraph.PZRow) : MutationGraph.pzLT a a = false := by
  simp [MutationGraph.pzLT]

/-- The patient-zero comparator is transitive. -/
theorem pzLT_trans {a b c : MutationGraph.PZRow}
    (h1 : MutationGraph.pzLT a b = true) (h2 : MutationGraph.pzLT b c = true) :
    MutationGraph.pzLT a c = true := by
  simp only [MutationGraph.pzLT, decide_eq_true_eq] at *
  rcases h1 with h1 | ⟨e1, h1⟩ <;> rcases h2 with h2 | ⟨e2, h2⟩
  · exact Or.inl (h1.trans h2)
  · exact Or.inl (e2 ▸ h1)
  · exact Or.inl (by rw [e1]; exact h2)
  · exact Or.inr ⟨e1.trans e2, h1.trans h2⟩

/-- Failing the patient-zero comparator is transitive (the complement order
is a total preorder). -/
theorem pzLT_neg_trans {a b c : MutationGraph.PZRow}
    (h1 : MutationGraph.pzLT a b = false) (h2 : MutationGraph.pzLT b c = false) :
    MutationGraph.pzLT a c = false := by
  simp only [MutationGraph.pzLT, decide_eq_false_iff_not] at *
  push_neg at h1 h2 ⊢
  refine ⟨le_trans h2.1 h1.1, ?_⟩
  intro he
  have hba : b.timestamp ≤ a.timestamp := h1.1
  have hcb : c.timestamp ≤ b.timestamp := h2.1
  have hac : a.timestamp = c.timestamp := he
  have hab : a.timestamp = b.timestamp := le_antisymm (hac ▸ hcb) hba
  have hbc : b.timestamp = c.timestamp := hab ▸ hac
  exact le_trans (h2.2 hbc) (h1.2 hab)

/-- The fold used by `find_patient_zero` returns an element of the folded
list (or the seed accumulator). -/
theorem pzFold_mem (cs : List MutationGraph.PZRow) :
    ∀ c : MutationGraph.PZRow,
      cs.foldl (fun b y => if MutationGraph.pzLT y b then y else b) c = c ∨
      cs.foldl (fun b y => if MutationGraph.pzLT y b then y else b) c ∈ cs := by
  induction cs with
  | nil => exact fun _ => Or.inl rfl
  | cons z rest ih =>
    intro c
    simp only [List.foldl_cons]
    rcases ih (if MutationGraph.pzLT z c then z else c) with h | h
    · rw [h]
      by_cases hz : MutationGraph.pzLT z c = true
      · rw [if_pos hz]
        exact Or.inr (List.mem_cons_self z rest)
      · rw [if_neg hz]
        exact Or.inl rfl
    · exact Or.inr (List.mem_cons_of_mem z h)

/-- Nothing in the folded list (nor the accumulator) is strictly below the
fold's result. -/
theorem pzFold_min (cs : List MutationGraph.PZRow) :
    ∀ c y, (y = c ∨ y ∈ cs) →
      MutationGraph.pzLT y
        (cs.foldl (fun b y => if MutationGraph.pzLT y b then y else b) c) = false := by
  induction cs with
  | nil =>
    intro c y hy
    rcases hy with rfl | hy
    · exact pzLT_irrefl y
    · exact absurd hy (List.not_mem_nil y)
  | cons z rest ih =>
    intro c y hy
    simp only [List.foldl_cons]
    by_cases hz : MutationGraph.pzLT z c = true
    · rw [if_pos hz]
      rcases hy with rfl | hy
      · have hzr := ih z z (Or.inl rfl)
        by_contra hcr
        rw [Bool.not_eq_false] at hcr
        exact absurd (pzLT_trans hz hcr) (by simp [hzr])
      · rcases List.mem_cons.mp hy with rfl | hy2
        · exact ih y y (Or.inl rfl)
        · exact ih z y (Or.inr hy2)
    · rw [if_neg hz]
      rcases hy with rfl | hy
      · exact ih y y (Or.inl rfl)
      · rcases List.mem_cons.mp hy with rfl | hy2
        · have hcr := ih c c (Or.inl rfl)
          have hzc : MutationGraph.pzLT y c = false := by simpa using hz
          exact pzLT_neg_trans hzc hcr
        · exact ih c y (Or.inr hy2)

/-- The seed is always in its own breadth-first closure. -/
theorem mem_reachableWithin_self (g : MutationGraph.State) (seed : String)
    (n : ℕ) : seed ∈ MutationGraph.reachableWithin g seed n := by
  induction n with
  | zero => exact List.mem_singleton.mpr rfl
  | succ n ih =>
    unfold MutationGraph.reachableWithin MutationGraph.grow
    exact List.mem_append_left _ ih

/-- Every patient-zero candidate row is built from a reachable node and its
stored properties. -/
theorem pzCandidates_spec (g : MutationGraph.State) (seed : String)
    (r : MutationGraph.PZRow) (hr : r ∈ MutationGraph.pzCandidates g seed) :
    ∃ v ∈ MutationGraph.reachableWithin g seed 10,
      ∃ ndv, MutationGraph.lookupNode g v = some ndv ∧
        r = { id := v, text := ndv.text, timestamp := ndv.timestamp,
              source_url := ndv.source_url } := by
  unfold MutationGraph.pzCandidates at hr
  rcases List.mem_filterMap.mp hr with ⟨v, hv, heq⟩
  cases hlk : MutationGraph.lookupNode g v with
  | none => rw [hlk] at heq; exact Option.noConfusion heq
  | some ndv =>
    rw [hlk] at heq
    exact ⟨v, hv, ndv, hlk, (Option.some.inj heq).symm⟩

/-- The row of any reachable, stored node is a patient-zero candidate. -/
theorem pzCandidates_mem (g : MutationGraph.State) (seed v : String)
    (ndv : MutationGraph.Node) (hv : v ∈ MutationGraph.reachableWithin g seed 10)
    (hlk : MutationGraph.lookupNode g v = some ndv) :
    ({ id := v, text := ndv.text, timestamp := ndv.timestamp,
       source_url := ndv.source_url } : MutationGraph.PZRow) ∈
      MutationGraph.pzCandidates g seed := by
  unfold MutationGraph.pzCandidates
  refine List.mem_filterMap.mpr ⟨v, hv, ?_⟩
  rw [hlk]
  rfl

/-- C3: on a connected graph, `find_patient_zero` returns no row when the
seed is unknown, and otherwise returns a row of a node reachable within 10
undirected hops whose stored timestamp is minimal among all reachable
stored nodes, with timestamp ties broken toward the smaller id. -/
theorem c3_patient_zero (g : MutationGraph.State) (seed : String) :
    (MutationGraph.lookupNode g seed = none →
      MutationGraph.find_patient_zero g seed = none) ∧
    (∀ nd, MutationGraph.lookupNode g seed = some nd →
      ∃ r : MutationGraph.PZRow,
        MutationGraph.find_patient_zero g seed = some r ∧
        r.id ∈ MutationGraph.reachableWithin g seed 10 ∧
        (∃ ndr, MutationGraph.lookupNode g r.id = some ndr ∧
          r.timestamp = ndr.timestamp) ∧
        (∀ v ∈ MutationGraph.reachableWithin g seed 10,
          ∀ ndv, MutationGraph.lookupNode g v = some ndv →
            r.timestamp ≤ ndv.timestamp) ∧
        (∀ v ∈ MutationGraph.reachableWithin g seed 10,
          ∀ ndv, MutationGraph.lookupNode g v = some ndv →
            ndv.timestamp = r.timestamp → r.id ≤ v)) := by
  constructor
  · intro hnone
    unfold MutationGraph.find_patient_zero
    rw [hnone]
  · intro nd hnd
    have hseedRow := pzCandidates_mem g seed seed nd
      (mem_reachableWithin_self g seed 10) hnd
    cases hcand : MutationGraph.pzCandidates g seed with
    | nil =>
      rw [hcand] at hseedRow
      exact absurd hseedRow (List.not_mem_nil _)
    | cons c cs =>
      refine ⟨cs.foldl (fun b y => if MutationGraph.pzLT y b then y else b) c,
        ?_, ?_⟩
      · unfold MutationGraph.find_patient_zero
        rw [hnd]
        dsimp only
        rw [hcand]
      · have hresMem : (cs.foldl (fun b y => if MutationGraph.pzLT y b then y else b) c)
            ∈ MutationGraph.pzCandidates g seed := by
          rw [hcand]
          rcases pzFold_mem cs c with h | h
          · rw [h]; exact List.mem_cons_self _ _
          · exact List.mem_cons_of_mem _ h
        obtain ⟨v, hv, ndv, hlk, hres⟩ := pzCandidates_spec g seed _ hresMem
        have hminAll : ∀ w ∈ MutationGraph.reachableWithin g seed 10,
            ∀ ndw, MutationGraph.lookupNode g w = some ndw →
            MutationGraph.pzLT
              { id := w, text := ndw.text, timestamp := ndw.timestamp,
                source_url := ndw.source_url }
              (cs.foldl (fun b y => if MutationGraph.pzLT y b then y else b) c)
              = false := by
          intro w hw ndw hlkw
          have hrow := pzCandidates_mem g seed w ndw hw hlkw
          rw [hcand] at hrow
          exact pzFold_min cs c _ (List.mem_cons.mp hrow)
        refine ⟨?_, ?_, ?_, ?_⟩
        · rw [hres]; exact hv
        · rw [hres]; exact ⟨ndv, hlk, rfl⟩
        · intro w hw ndw hlkw
          have := hminAll w hw ndw hlkw
          simp only [MutationGraph.pzLT, decide_eq_false_iff_not] at this
          push_neg at this
          exact this.1
        · intro w hw ndw hlkw hts
          have h1 := hminAll w hw ndw hlkw
          simp only [MutationGraph.pzLT, decide_eq_false_iff_not] at h1
          push_neg at h1
          exact h1.2 hts

/-- C3 (witness): on the spec's test graph (timestamps 10, 5, 20 on
`A - B - C`), the patient-zero properties hold for seed `A`. -/
theorem c3_witness :
    MutationGraph.lookupNode exampleGraph "A" = some exampleNodeA ∧
    (∃ r : MutationGraph.PZRow,
      MutationGraph.find_patient_zero exampleGraph "A" = some r ∧
      r.id ∈ MutationGraph.reachableWithin exampleGraph "A" 10 ∧
      (∃ ndr, MutationGraph.lookupNode exampleGraph r.id = some ndr ∧
        r.timestamp = ndr.timestamp) ∧
      (∀ v ∈ MutationGraph.reachableWithin exampleGraph "A" 10,
        ∀ ndv, MutationGraph.lookupNode exampleGraph v = some ndv →
          r.timestamp ≤ ndv.timestamp) ∧
      (∀ v ∈ MutationGraph.reachableWithin exampleGraph "A" 10,
        ∀ ndv, MutationGraph.lookupNode exampleGraph v = some ndv →
          ndv.timestamp = r.timestamp → r.id ≤ v)) := by
  refine ⟨by decide, ?_⟩
  exact (c3_patient_zero exampleGraph "A").2 exampleNodeA (by decide)

/-! ## Verification: family reflexivity (C7) -/

/-- The zero-length trail is always enumerated: `(u, d)` heads the rows of
the pattern starting at `u` with `d` hops taken. -/
theorem trailRows_self (edges : List MutationGraph.Edge) (fuel : ℕ)
    (used : List (String × String)) (u : String) (d : ℕ) :
    (u, d) ∈ MutationGraph.trailRows edges fuel used u d := by
  cases fuel with
  | zero => exact List.mem_singleton.mpr rfl
  | succ n => exact List.mem_cons_self _ _

/-- Every row of the trail enumeration lies at depth at least `d`, and the
only row at depth exactly `d` is the start itself. -/
theorem trailRows_depth (edges : List MutationGraph.Edge) :
    ∀ (fuel : ℕ) (used : List (String × String)) (u : String) (d : ℕ),
      ∀ p ∈ MutationGraph.trailRows edges fuel used u d,
        d ≤ p.2 ∧ (p.2 = d → p = (u, d)) := by
  intro fuel
  induction fuel with
  | zero =>
    intro used u d p hp
    have hpd := List.mem_singleton.mp hp
    rw [hpd]
    exact ⟨le_refl d, fun _ => rfl⟩
  | succ n ih =>
    intro used u d p hp
    unfold MutationGraph.trailRows at hp
    rcases List.mem_cons.mp hp with rfl | hp2
    · exact ⟨le_refl d, fun _ => rfl⟩
    · rcases List.mem_flatMap.mp hp2 with ⟨step, _, hpin⟩
      have hdeep := (ih (step.1 :: used) step.2 (d + 1) p hpin).1
      refine ⟨by omega, fun h => absurd hdeep (by omega)⟩

/-- The seed's own row (distance 0) is always among the family rows when the
seed is stored. -/
theorem seedRow_mem_famRows (g : MutationGraph.State) (seed : String)
    (nd : MutationGraph.Node) (hnd : MutationGraph.lookupNode g seed = some nd) :
    seedFamRow seed nd ∈ MutationGraph.famRows g seed := by
  unfold MutationGraph.famRows
  refine List.mem_filterMap.mpr ⟨(seed, 0), trailRows_self g.edges 5 [] seed 0, ?_⟩
  rw [hnd]
  rfl

/-- The only distance-0 family row is the seed's own row. -/
theorem famRows_distance_zero (g : MutationGraph.State) (seed : String)
    (nd : MutationGraph.Node) (hnd : MutationGraph.lookupNode g seed = some nd) :
    ∀ r ∈ MutationGraph.famRows g seed, r.distance = 0 →
      r = seedFamRow seed nd := by
  intro r hr h0
  unfold MutationGraph.famRows at hr
  rcases List.mem_filterMap.mp hr with ⟨p, hp, heq⟩
  cases hlk : MutationGraph.lookupNode g p.1 with
  | none => rw [hlk] at heq; exact Option.noConfusion heq
  | some ndp =>
    rw [hlk] at heq
    have hre := Option.some.inj heq
    have hp2 : p.2 = 0 := by rw [← hre] at h0; exact h0
    have hpu : p = (seed, 0) := (trailRows_depth g.edges 5 [] seed 0 p hp).2 hp2
    subst hpu
    rw [hnd] at hlk
    have hnde := Option.some.inj hlk
    rw [← hre, hnde]
    exact rfl

/-- A pairwise-sorted list whose member `x` is strictly below every other
member starts with `x`. -/
theorem sorted_head_min {α : Type} (r : α → α → Prop) (l : List α) (x : α)
    (hs : List.Pairwise r l) (hx : x ∈ l)
    (hmin : ∀ y ∈ l, y ≠ x → ¬ r y x) : ∃ t, l = x :: t := by
  cases l with
  | nil => exact absurd hx (List.not_mem_nil x)
  | cons h t =>
    by_cases hhx : h = x
    · exact ⟨t, by rw [hhx]⟩
    · rcases List.mem_cons.mp hx with rfl | hxt
      · exact absurd rfl hhx
      · have hr : r h x := List.rel_of_pairwise_cons hs hxt
        exact absurd hr (hmin h (List.mem_cons_self h t) hhx)

/-- C7: `find_mutation_family` of an unknown seed is empty (the MATCH
produces no rows, no exception escapes), and for a stored seed the family
always contains the seed's own row at distance 0 (it survives both the
ordering and the LIMIT because distance 0 sorts first). -/
theorem c7_family_reflexive (g : MutationGraph.State) (seed : String) :
    (MutationGraph.lookupNode g seed = none →
      MutationGraph.find_mutation_family g seed = []) ∧
    (∀ nd, MutationGraph.lookupNode g seed = some nd →
      ∃ r ∈ MutationGraph.find_mutation_family g seed,
        r.id = seed ∧ r.distance = 0 ∧ r.timestamp = nd.timestamp) := by
  constructor
  · intro hnone
    unfold MutationGraph.find_mutation_family
    rw [hnone]
  · intro nd hnd
    have hmem0 : seedFamRow seed nd ∈ (MutationGraph.famRows g seed).dedup :=
      List.mem_dedup.mpr (seedRow_mem_famRows g seed nd hnd)
    have hmemS : seedFamRow seed nd ∈
        List.insertionSort MutationGraph.rowLE ((MutationGraph.famRows g seed).dedup) :=
      ((List.perm_insertionSort MutationGraph.rowLE _).mem_iff).mpr hmem0
    have hsorted := List.sorted_insertionSort MutationGraph.rowLE
      ((MutationGraph.famRows g seed).dedup)
    have hmin : ∀ y ∈ List.insertionSort MutationGraph.rowLE
        ((MutationGraph.famRows g seed).dedup),
        y ≠ seedFamRow seed nd → ¬ MutationGraph.rowLE y (seedFamRow seed nd) := by
      intro y hy hne
      have hy2 : y ∈ MutationGraph.famRows g seed :=
        List.mem_dedup.mp
          (((List.perm_insertionSort MutationGraph.rowLE _).mem_iff).mp hy)
      have hyd : y.distance ≠ 0 := by
        intro h0
        exact hne (famRows_distance_zero g seed nd hnd y hy2 h0)
      intro hr
      rcases hr with hlt | ⟨heq, _⟩
      · exact absurd hlt (by simp [seedFamRow])
      · exact hyd (by simpa [seedFamRow] using heq)
    obtain ⟨t, ht⟩ := sorted_head_min MutationGraph.rowLE _ _ hsorted hmemS hmin
    refine ⟨seedFamRow seed nd, ?_, rfl, rfl, rfl⟩
    unfold MutationGraph.find_mutation_family
    rw [hnd]
    dsimp only
    rw [ht, List.take_cons (by norm_num)]
    exact List.mem_cons_self _ _

/-- C7 (witness): the family of seed `A` of the test graph contains `A`
itself at distance 0; the theorem is applied at that concrete graph. -/
theorem c7_witness :
    MutationGraph.lookupNode exampleGraph "A" = some exampleNodeA ∧
    (∃ r ∈ MutationGraph.find_mutation_family exampleGraph "A",
      r.id = "A" ∧ r.distance = 0 ∧ r.timestamp = exampleNodeA.timestamp) := by
  exact ⟨by decide,
    (c7_family_reflexive exampleGraph "A").2 exampleNodeA (by decide)⟩

/-! ## Verification: orchestrator error isolation (C2) -/

/-- C2: `process` is a total function -- it returns a structured result for
every input -- and whenever the returned record carries a populated `error`
field, every analytics field is zeroed/empty: no similar claims, empty
family, no patient zero, all-zero analysis, empty prediction, viral score 0
and index size 0. -/
theorem c2_error_isolation (text_model : Option (String → List ℚ))
    (sha256 : String → List ℕ) (graph : CMTEAgent.GraphHandle)
    (se : MutationSearchEngine.State) (threshold : ℚ) (now : ℤ)
    (claim_id claim_text : String) (claim_data : CMTEAgent.ClaimData)
    (r : CMTEAgent.CMTEResult) (se2 : MutationSearchEngine.State)
    (gh2 : CMTEAgent.GraphHandle)
    (hrun : CMTEAgent.process text_model sha256 graph se threshold now
      claim_id claim_text claim_data = (r, se2, gh2))
    (herr : r.error ≠ none) :
    r.error = some CMTEAgent.attributeErrorMsg ∧
    r.similar_claims_count = 0 ∧ r.similar_claims = [] ∧
    r.mutation_family = [] ∧ r.patient_zero = none ∧
    r.analysis = zeroStats ∧ r.analysis.family_size = 0 ∧
    r.analysis.viral_score = 0 ∧ r.spread_prediction = none ∧
    r.viral_score = 0 ∧ r.index_size = 0 := by
  cases graph with
  | notConfigured =>
    unfold CMTEAgent.process at hrun
    dsimp only at hrun
    injection hrun with ha _
    rw [← ha] at herr
    exact absurd rfl herr
  | connFailed =>
    cases claim_data with
    | notDict =>
      unfold CMTEAgent.process at hrun
      dsimp only at hrun
      injection hrun with ha _
      rw [← ha]
      exact ⟨rfl, rfl, rfl, rfl, rfl, rfl, rfl, rfl, rfl, rfl, rfl⟩
    | dict ts src plat =>
      unfold CMTEAgent.process at hrun
      dsimp only at hrun
      injection hrun with ha _
      rw [← ha] at herr
      exact absurd rfl herr
  | connected gst =>
    cases claim_data with
    | notDict =>
      unfold CMTEAgent.process at hrun
      dsimp only at hrun
      injection hrun with ha _
      rw [← ha]
      exact ⟨rfl, rfl, rfl, rfl, rfl, rfl, rfl, rfl, rfl, rfl, rfl⟩
    | dict ts src plat =>
      unfold CMTEAgent.process at hrun
      dsimp only at hrun
      injection hrun with ha _
      rw [← ha] at herr
      exact absurd rfl herr

set_option maxRecDepth 8000 in
/-- C2 (witness): a concrete run whose `claim_data` is not a dict populates
`error` and zeroes every analytics field. -/
theorem c2_witness :
    c2Run.1.error ≠ none ∧
    (c2Run.1.error = some CMTEAgent.attributeErrorMsg ∧
      c2Run.1.similar_claims_count = 0 ∧ c2Run.1.similar_claims = [] ∧
      c2Run.1.mutation_family = [] ∧ c2Run.1.patient_zero = none ∧
      c2Run.1.analysis = zeroStats ∧ c2Run.1.analysis.family_size = 0 ∧
      c2Run.1.analysis.viral_score = 0 ∧ c2Run.1.spread_prediction = none ∧
      c2Run.1.viral_score = 0 ∧ c2Run.1.index_size = 0) := by
  have herr : c2Run.1.error ≠ none := by
    have he : c2Run.1.error = some CMTEAgent.attributeErrorMsg := rfl
    rw [he]
    simp
  exact ⟨herr,
    c2_error_isolation (some (fun _ => [1])) (fun _ => c9Digest)
      CMTEAgent.GraphHandle.connFailed (MutationSearchEngine.init 384) (17/20)
      0 "c1" "vaccines cause outages" CMTEAgent.ClaimData.notDict
      c2Run.1 c2Run.2.1 c2Run.2.2 rfl herr⟩
